import Mathlib

/-!
Verification development for the Open-Overlay editor core.

This file shallowly embeds the color math, easing functions, global-keyframe
interpolation engine, scene snapshotting, and the transform/resize geometry
engine of the source, and proves the specification claims about them.

JavaScript numbers are modelled as exact reals (`ℝ`) / rationals-in-`ℝ`;
integers arising from parsing and rounding are `ℤ`/`ℕ`.  JavaScript `NaN` is
not representable; the few places where the source would produce `NaN`
(noted by comments) fall back to `0` and are never reached by the claims.
-/

/-! ### Color utilities (src/unnamed/part_000, hexToRgb / rgbToHex / lerpColor) -/

/-- One `r`,`g`,`b` byte triple, as produced by `hexToRgb`. -/
structure RGB where
  r : ℕ
  g : ℕ
  b : ℕ
  deriving DecidableEq

/-- The characters JavaScript `parseInt` skips as leading whitespace
(ASCII subset; exotic Unicode space characters are not modelled and do not
occur in any claim). -/
def isJsWhitespace (c : Char) : Bool :=
  c == ' ' || c == '\t' || c == '\n' || c == '\r' || c == '\x0b' || c == '\x0c'

/-- Value of one hexadecimal digit character, `none` when the character is
not a hex digit. -/
def hexDigitVal (c : Char) : Option ℕ :=
  if '0' ≤ c ∧ c ≤ '9' then some (c.toNat - '0'.toNat)
  else if 'a' ≤ c ∧ c ≤ 'f' then some (c.toNat - 'a'.toNat + 10)
  else if 'A' ≤ c ∧ c ≤ 'F' then some (c.toNat - 'A'.toNat + 10)
  else none

/-- Accumulate the value of a maximal run of leading hex digits
(JavaScript `parseInt` stops at the first invalid character). -/
def hexDigitsVal : List Char → ℕ → ℕ
  | [], acc => acc
  | c :: rest, acc =>
    match hexDigitVal c with
    | some d => hexDigitsVal rest (16 * acc + d)
    | none => acc

/-- `parseInt` with radix 16 strips a leading `0x`/`0X` marker. -/
def stripHexMarker : List Char → List Char
  | '0' :: 'x' :: rest => rest
  | '0' :: 'X' :: rest => rest
  | cs => cs

/-- JavaScript `parseInt(s, 16)`: skip leading whitespace, read an optional
sign, strip an optional `0x` marker, then parse the longest run of hex
digits; `none` models the `NaN` result when no digit is found. -/
def parseIntHex (cs : List Char) : Option ℤ :=
  let cs1 := cs.dropWhile isJsWhitespace
  let sign : ℤ := match cs1 with | '-' :: _ => -1 | _ => 1
  let cs2 := match cs1 with | '-' :: rest => rest | '+' :: rest => rest | _ => cs1
  let cs3 := stripHexMarker cs2
  match cs3 with
  | c :: _ => if (hexDigitVal c).isSome then some (sign * (hexDigitsVal cs3 0 : ℤ)) else none
  | [] => none

/-- JavaScript `hex.replace('#', '')`: remove the first occurrence of `#`. -/
def removeFirstHash : List Char → List Char
  | [] => []
  | c :: cs => if c = '#' then cs else c :: removeFirstHash cs

/-- JavaScript `clean.split('').map(c => c + c).join('')`: double every
character. -/
def dupChars (cs : List Char) : List Char :=
  cs.flatMap fun c => [c, c]

/-- JavaScript `clean.padEnd(6, '0')`. -/
def padEndZeros (cs : List Char) : List Char :=
  cs ++ List.replicate (6 - cs.length) '0'

/-- `hexToRgb` from the source: clean the `#`, expand 3-digit shorthand or
pad to six characters, `parseInt(full.slice(0,6), 16) || 0`, then extract the
three bytes with shifts and masks.  `(n >> 16) & 255` on a (small) possibly
negative integer is floor division and Euclidean remainder. -/
def hexToRgb (hex : String) : RGB :=
  let clean := removeFirstHash hex.data
  let full := if clean.length = 3 then dupChars clean else padEndZeros clean
  let n : ℤ := (parseIntHex (full.take 6)).getD 0
  ⟨((n.fdiv 65536).emod 256).toNat, ((n.fdiv 256).emod 256).toNat, (n.emod 256).toNat⟩

/-- Hex digit character of a value below 16 (lowercase, as JavaScript
`toString(16)`). -/
def toHexDigit (n : ℕ) : Char :=
  if n < 10 then Char.ofNat ('0'.toNat + n) else Char.ofNat ('a'.toNat + (n - 10))

/-- JavaScript `v.toString(16)` for a natural number (lowercase hex digits,
`"0"` for zero), via the standard base-16 digit expansion. -/
def natToHex (n : ℕ) : List Char :=
  Nat.toDigits 16 n

/-- JavaScript `v.toString(16)` for an integer (negative values get a
leading minus). -/
def intToHex (n : ℤ) : List Char :=
  if n < 0 then '-' :: natToHex n.natAbs else natToHex n.toNat

/-- JavaScript `.padStart(2, '0')`. -/
def padStart2 (cs : List Char) : List Char :=
  List.replicate (2 - cs.length) '0' ++ cs

/-- `rgbToHex` from the source: `'#' + [r,g,b].map(v =>
v.toString(16).padStart(2,'0')).join('')`. -/
def rgbToHex (c : RGB) : String :=
  ⟨'#' :: (padStart2 (natToHex c.r) ++ padStart2 (natToHex c.g) ++ padStart2 (natToHex c.b))⟩

/-- The decimal digit runs of a string, as matched by `/\d+/g`
(`acc` carries the run currently being read). -/
def decimalRuns : List Char → Option ℕ → List ℕ
  | [], none => []
  | [], some n => [n]
  | c :: rest, acc =>
    if c.isDigit then decimalRuns rest (some ((acc.getD 0) * 10 + (c.toNat - '0'.toNat)))
    else
      match acc with
      | some n => n :: decimalRuns rest none
      | none => decimalRuns rest none

/-- The color parser inside `lerpColor`: a `#`-string is split into three
2-character hex slices (3-digit shorthand expanded first); anything else is
read as its first three decimal digit runs, or `(0,0,0)` when there are
none.  A missing or malformed slice is `NaN` in JavaScript; it is modelled
as `0` here and never reached by the claims. -/
def lerpParse (c : String) : ℤ × ℤ × ℤ :=
  match c.data with
  | '#' :: hexPart =>
    let full := if hexPart.length = 3 then dupChars hexPart else hexPart
    ((parseIntHex (full.take 2)).getD 0,
     (parseIntHex ((full.drop 2).take 2)).getD 0,
     (parseIntHex ((full.drop 4).take 2)).getD 0)
  | cs =>
    match decimalRuns cs none with
    | [] => (0, 0, 0)
    | runs => ((runs.getD 0 0 : ℤ), (runs.getD 1 0 : ℤ), (runs.getD 2 0 : ℤ))

/-- `lerpColor` from the source: parse both endpoints, blend each channel
linearly, `Math.round`, and re-encode as `#` plus three padded hex bytes. -/
noncomputable def lerpColor (a b : String) (t : ℝ) : String :=
  let ca := lerpParse a
  let cb := lerpParse b
  let r : ℤ := round ((ca.1 : ℝ) + ((cb.1 - ca.1 : ℤ) : ℝ) * t)
  let g : ℤ := round ((ca.2.1 : ℝ) + ((cb.2.1 - ca.2.1 : ℤ) : ℝ) * t)
  let bl : ℤ := round ((ca.2.2 : ℝ) + ((cb.2.2 - ca.2.2 : ℤ) : ℝ) * t)
  ⟨'#' :: (padStart2 (intToHex r) ++ padStart2 (intToHex g) ++ padStart2 (intToHex bl))⟩

/-! ### Easing functions (src/unnamed/part_000, easingFn) -/

/-- The `EasingType` union from `types.ts`. -/
inductive EasingType where
  | linear
  | easeIn
  | easeOut
  | easeInOut
  | cubicBezier
  | stepStart
  | stepEnd
  | bounce
  | elastic
  deriving DecidableEq

/-- `easingFn` from the source.  The `switch` has explicit cases for
`linear`, `ease-in`, `ease-out`, `ease-in-out`, `bounce` and `elastic`;
every other kind hits `default: return t`. -/
noncomputable def easingFn (t : ℝ) : EasingType → ℝ
  | .linear => t
  | .easeIn => t * t
  | .easeOut => t * (2 - t)
  | .easeInOut => if t < 0.5 then 2 * t * t else -1 + (4 - 2 * t) * t
  | .bounce =>
    if t < 1 / 2.75 then 7.5625 * t * t
    else if t < 2 / 2.75 then
      let t1 := t - 1.5 / 2.75
      7.5625 * t1 * t1 + 0.75
    else if t < 2.5 / 2.75 then
      let t2 := t - 2.25 / 2.75
      7.5625 * t2 * t2 + 0.9375
    else
      let t3 := t - 2.625 / 2.75
      7.5625 * t3 * t3 + 0.984375
  | .elastic =>
    if t = 0 then 0
    else if t = 1 then 1
    else -(2 : ℝ) ^ (10 * (t - 1)) * Real.sin ((t - 1.1) * 5 * Real.pi)
  | .cubicBezier => t
  | .stepStart => t
  | .stepEnd => t

/-- Modelled from the spec: the easing table of §4.2 — linear `t`, ease-in
`t²`, ease-out `t(2−t)`, ease-in-out piecewise `2t²` / `−1+(4−2t)t`, the
four-segment bounce with breakpoints `1/2.75`, `2/2.75`, `2.5/2.75` (the
spec fixes only the breakpoints; coefficients follow the source), elastic
`0` at `t=0`, `1` at `t=1`, else `−2^(10(t−1))·sin((t−1.1)·5π)`, and every
kind outside the table falls back to linear. -/
noncomputable def easeSpec (t : ℝ) : EasingType → ℝ
  | .linear => t
  | .easeIn => t ^ 2
  | .easeOut => t * (2 - t)
  | .easeInOut => if t < 0.5 then 2 * t ^ 2 else -1 + (4 - 2 * t) * t
  | .bounce =>
    if t < 1 / 2.75 then 7.5625 * t * t
    else if t < 2 / 2.75 then
      let t1 := t - 1.5 / 2.75
      7.5625 * t1 * t1 + 0.75
    else if t < 2.5 / 2.75 then
      let t2 := t - 2.25 / 2.75
      7.5625 * t2 * t2 + 0.9375
    else
      let t3 := t - 2.625 / 2.75
      7.5625 * t3 * t3 + 0.984375
  | .elastic =>
    if t = 0 then 0
    else if t = 1 then 1
    else -((2 : ℝ) ^ (10 * (t - 1)) * Real.sin ((t - 1.1) * (5 * Real.pi)))
  | .cubicBezier => t
  | .stepStart => t
  | .stepEnd => t

/-! ### Keyframe data model (src/types.ts) -/

/-- The `KeyframeProperty` union from `types.ts`. -/
inductive KeyframeProperty where
  | x
  | y
  | width
  | height
  | rotation
  | opacity
  | fill
  | strokeColor
  | strokeWidth
  | borderRadius
  | fontSize
  | letterSpacing
  | lineHeight
  | blur
  | brightness
  | contrast
  | hueRotate
  | saturate
  | color
  | scaleX
  | scaleY
  deriving DecidableEq, Fintype

/-- A JavaScript `number | string` property value. -/
inductive Value where
  | num (v : ℝ)
  | str (s : String)

/-- `(v as number)`: the numeric reading of a value.  A string in a numeric
slot would be `NaN` arithmetic in JavaScript; it is modelled as `0` and
never occurs for type-correct snapshots. -/
noncomputable def Value.asNum : Value → ℝ
  | .num v => v
  | .str _ => 0

/-- `(v as string)`: the string reading of a value (a number in a color
slot would be coerced by JavaScript; modelled as `""`, never reached). -/
def Value.asStr : Value → String
  | .str s => s
  | .num _ => ""

/-- The scalar attributes of an `OverlayElement` that the animation and
snapshot code reads.  Required geometry/opacity fields are plain reals;
everything else is optional exactly as in `types.ts`. -/
structure ElementScalars where
  id : String
  x : ℝ
  y : ℝ
  width : ℝ
  height : ℝ
  rotation : ℝ
  opacity : ℝ
  scaleX : Option ℝ
  scaleY : Option ℝ
  strokeWidth : Option ℝ
  borderRadius : Option ℝ
  fontSize : Option ℝ
  letterSpacing : Option ℝ
  lineHeight : Option ℝ
  blur : Option ℝ
  brightness : Option ℝ
  contrast : Option ℝ
  hueRotate : Option ℝ
  saturate : Option ℝ
  fill : Option String
  strokeColor : Option String
  color : Option String

/-- An element tree node: scalar attributes plus the (possibly empty)
`children` list of a group/mask. -/
inductive OverlayElement where
  | mk (scalars : ElementScalars) (children : List OverlayElement)

/-- The scalar attributes of an element. -/
def OverlayElement.scalars : OverlayElement → ElementScalars
  | .mk s _ => s

/-- The children of an element. -/
def OverlayElement.children : OverlayElement → List OverlayElement
  | .mk _ ch => ch

/-- The id of an element. -/
def OverlayElement.id (el : OverlayElement) : String :=
  el.scalars.id

/-- A keyframe's per-element snapshot: a partial map from animatable
property to value. -/
def Snapshot : Type := KeyframeProperty → Option Value

/-- A global keyframe (`types.ts`): id, time, easing toward the next
keyframe, and a partial map from element id to snapshot. -/
structure GlobalKeyframe where
  id : String
  time : ℝ
  easing : EasingType
  elementStates : String → Option Snapshot

instance : Inhabited GlobalKeyframe :=
  ⟨⟨"", 0, .linear, fun _ => none⟩⟩

/-- `NUMERIC_KEYFRAME_PROPS` from the source, in source order. -/
def NUMERIC_KEYFRAME_PROPS : List KeyframeProperty :=
  [.x, .y, .width, .height, .rotation, .opacity,
   .strokeWidth, .borderRadius, .fontSize, .letterSpacing, .lineHeight,
   .blur, .brightness, .contrast, .hueRotate, .saturate, .scaleX, .scaleY]

/-- `COLOR_KEYFRAME_PROPS` from the source. -/
def COLOR_KEYFRAME_PROPS : List KeyframeProperty :=
  [.fill, .strokeColor, .color]

/-- `(el as any)[prop]`: the element's own (base) value for an animatable
property; `none` models an `undefined` optional field. -/
noncomputable def elementPropValue (el : OverlayElement) : KeyframeProperty → Option Value
  | .x => some (.num el.scalars.x)
  | .y => some (.num el.scalars.y)
  | .width => some (.num el.scalars.width)
  | .height => some (.num el.scalars.height)
  | .rotation => some (.num el.scalars.rotation)
  | .opacity => some (.num el.scalars.opacity)
  | .scaleX => el.scalars.scaleX.map .num
  | .scaleY => el.scalars.scaleY.map .num
  | .strokeWidth => el.scalars.strokeWidth.map .num
  | .borderRadius => el.scalars.borderRadius.map .num
  | .fontSize => el.scalars.fontSize.map .num
  | .letterSpacing => el.scalars.letterSpacing.map .num
  | .lineHeight => el.scalars.lineHeight.map .num
  | .blur => el.scalars.blur.map .num
  | .brightness => el.scalars.brightness.map .num
  | .contrast => el.scalars.contrast.map .num
  | .hueRotate => el.scalars.hueRotate.map .num
  | .saturate => el.scalars.saturate.map .num
  | .fill => el.scalars.fill.map .str
  | .strokeColor => el.scalars.strokeColor.map .str
  | .color => el.scalars.color.map .str

/-- `(pv as number) ?? (el as any)[prop] ?? 0` from the numeric branch of
the interpolation loop. -/
noncomputable def numWithFallback (pv : Option Value) (el : OverlayElement)
    (prop : KeyframeProperty) : ℝ :=
  match pv with
  | some v => v.asNum
  | none =>
    match elementPropValue el prop with
    | some v => v.asNum
    | none => 0

/-- `(pv as string) ?? (el as any)[prop] ?? '#000000'` from the color
branch of the interpolation loop. -/
noncomputable def strWithFallback (pv : Option Value) (el : OverlayElement)
    (prop : KeyframeProperty) : String :=
  match pv with
  | some v => v.asStr
  | none =>
    match elementPropValue el prop with
    | some v => v.asStr
    | none => "#000000"

/-- `kf.elementStates[elId] ?? {}` from the source. -/
def getState (kf : GlobalKeyframe) (elId : String) : Snapshot :=
  (kf.elementStates elId).getD (fun _ => none)

noncomputable instance : DecidableRel (fun a b : GlobalKeyframe => a.time ≤ b.time) :=
  fun a b => inferInstanceAs (Decidable (a.time ≤ b.time))

/-- The bracketing-pair scan of the source: the first adjacent pair
`(prev, next)` with `prev.time ≤ time ≤ next.time`, `none` when no adjacent
pair matches (in which case the source keeps its `sorted[0], sorted[1]`
defaults). -/
noncomputable def findBracket (time : ℝ) : List GlobalKeyframe → Option (GlobalKeyframe × GlobalKeyframe)
  | a :: b :: rest =>
    if a.time ≤ time ∧ time ≤ b.time then some (a, b) else findBracket time (b :: rest)
  | _ => none

/-- The per-property body of the interpolation loop, for a located
bracketing pair `prev`/`next`: the union of keys present in either snapshot
is interpolated (numeric linearly, color via `lerpColor`, each missing side
falling back to the element's base value), keys present in neither produce
no entry. -/
noncomputable def interpPair (prev next : GlobalKeyframe) (elId : String)
    (el : OverlayElement) (time : ℝ) : Snapshot :=
  let prevState := getState prev elId
  let nextState := getState next elId
  let span := next.time - prev.time
  let rawT := if span > 0 then (time - prev.time) / span else 1
  let t := easingFn rawT prev.easing
  fun prop =>
    match prevState prop, nextState prop with
    | none, none => none
    | pv, nv =>
      if prop ∈ NUMERIC_KEYFRAME_PROPS then
        let a := numWithFallback pv el prop
        let b := numWithFallback nv el prop
        some (.num (a + (b - a) * t))
      else if prop ∈ COLOR_KEYFRAME_PROPS then
        some (.str (lerpColor (strWithFallback pv el prop) (strWithFallback nv el prop) t))
      else none

/-- `interpolateElementFromGlobal` from the source: empty keyframe list
gives no overrides; otherwise sort ascending by time (stable, as the
JavaScript `sort`), clamp to the first/last snapshot outside the covered
range, locate the bracketing pair, and interpolate property-wise. -/
noncomputable def interpolateElementFromGlobal (keyframes : List GlobalKeyframe)
    (elId : String) (el : OverlayElement) (time : ℝ) : Snapshot :=
  if keyframes.length = 0 then fun _ => none
  else
    let sorted := List.insertionSort (fun a b => a.time ≤ b.time) keyframes
    if time ≤ sorted.headI.time then getState sorted.headI elId
    else if time ≥ sorted.getLastI.time then getState sorted.getLastI elId
    else
      let pn := (findBracket time sorted).getD (sorted.headI, sorted.tail.headI)
      interpPair pn.1 pn.2 elId el time

/-! ### Scene snapshotting and keyframe insertion (src/unnamed/part_000) -/

/-- Numeric override from the `{...el, ...overrides}` spread (an ill-typed
string override of a numeric field cannot be represented and never occurs
for snapshots produced by the engine). -/
def ovNum (ov : Snapshot) (p : KeyframeProperty) (d : ℝ) : ℝ :=
  match ov p with
  | some (.num v) => v
  | some (.str _) => d
  | none => d

/-- Optional-numeric override from the spread. -/
def ovNumOpt (ov : Snapshot) (p : KeyframeProperty) (d : Option ℝ) : Option ℝ :=
  match ov p with
  | some (.num v) => some v
  | some (.str _) => d
  | none => d

/-- Optional-string override from the spread. -/
def ovStrOpt (ov : Snapshot) (p : KeyframeProperty) (d : Option String) : Option String :=
  match ov p with
  | some (.str s) => some s
  | some (.num _) => d
  | none => d

/-- `stateEl = { ...el, ...overrides }` from `snapshotAllElements`. -/
def applyOverrides (el : OverlayElement) (ov : Snapshot) : OverlayElement :=
  .mk
    { el.scalars with
      x := ovNum ov .x el.scalars.x
      y := ovNum ov .y el.scalars.y
      width := ovNum ov .width el.scalars.width
      height := ovNum ov .height el.scalars.height
      rotation := ovNum ov .rotation el.scalars.rotation
      opacity := ovNum ov .opacity el.scalars.opacity
      scaleX := ovNumOpt ov .scaleX el.scalars.scaleX
      scaleY := ovNumOpt ov .scaleY el.scalars.scaleY
      strokeWidth := ovNumOpt ov .strokeWidth el.scalars.strokeWidth
      borderRadius := ovNumOpt ov .borderRadius el.scalars.borderRadius
      fontSize := ovNumOpt ov .fontSize el.scalars.fontSize
      letterSpacing := ovNumOpt ov .letterSpacing el.scalars.letterSpacing
      lineHeight := ovNumOpt ov .lineHeight el.scalars.lineHeight
      blur := ovNumOpt ov .blur el.scalars.blur
      brightness := ovNumOpt ov .brightness el.scalars.brightness
      contrast := ovNumOpt ov .contrast el.scalars.contrast
      hueRotate := ovNumOpt ov .hueRotate el.scalars.hueRotate
      saturate := ovNumOpt ov .saturate el.scalars.saturate
      fill := ovStrOpt ov .fill el.scalars.fill
      strokeColor := ovStrOpt ov .strokeColor el.scalars.strokeColor
      color := ovStrOpt ov .color el.scalars.color }
    el.children

/-- The `stateEl` of `snapshotAllElements`: when a time and a non-empty
keyframe list are supplied and the interpolated override set is non-empty,
the overrides are merged onto the element. -/
noncomputable def effectiveElement (time? : Option ℝ) (kfs? : Option (List GlobalKeyframe))
    (el : OverlayElement) : OverlayElement :=
  match time?, kfs? with
  | some time, some kfs =>
    if kfs.length > 0 then
      let overrides := interpolateElementFromGlobal kfs el.id el time
      if ∃ p, (overrides p).isSome then applyOverrides el overrides else el
    else el
  | _, _ => el

/-- The object literal written into `states[el.id]` by `snapshotAllElements`:
geometry, rotation, opacity and the scale factors (defaulting to 1) are
always recorded; `fill`/`strokeColor`/`color` and `blur`/`brightness`/
`fontSize` only when truthy; `borderRadius` whenever defined. -/
noncomputable def elementSnapshot (el : OverlayElement) : Snapshot := fun p =>
  match p with
  | .x => some (.num el.scalars.x)
  | .y => some (.num el.scalars.y)
  | .width => some (.num el.scalars.width)
  | .height => some (.num el.scalars.height)
  | .rotation => some (.num el.scalars.rotation)
  | .opacity => some (.num el.scalars.opacity)
  | .scaleX => some (.num (el.scalars.scaleX.getD 1))
  | .scaleY => some (.num (el.scalars.scaleY.getD 1))
  | .fill =>
    match el.scalars.fill with
    | some s => if s ≠ "" then some (.str s) else none
    | none => none
  | .strokeColor =>
    match el.scalars.strokeColor with
    | some s => if s ≠ "" then some (.str s) else none
    | none => none
  | .color =>
    match el.scalars.color with
    | some s => if s ≠ "" then some (.str s) else none
    | none => none
  | .borderRadius => el.scalars.borderRadius.map .num
  | .blur =>
    match el.scalars.blur with
    | some v => if v ≠ 0 then some (.num v) else none
    | none => none
  | .brightness =>
    match el.scalars.brightness with
    | some v => if v ≠ 0 then some (.num v) else none
    | none => none
  | .fontSize =>
    match el.scalars.fontSize with
    | some v => if v ≠ 0 then some (.num v) else none
    | none => none
  | _ => none

/-- The pre-order sequence of `states[el.id] = ...` writes performed by the
`flatten` recursion of `snapshotAllElements`. -/
noncomputable def snapshotWrites (time? : Option ℝ) (kfs? : Option (List GlobalKeyframe)) :
    List OverlayElement → List (String × Snapshot)
  | [] => []
  | .mk s ch :: rest =>
    (s.id, elementSnapshot (effectiveElement time? kfs? (.mk s ch)))
      :: (snapshotWrites time? kfs? ch ++ snapshotWrites time? kfs? rest)

/-- `snapshotAllElements` from the source, as the finished `states` record
(sequential writes; a later write to the same id wins). -/
noncomputable def snapshotAllElements (els : List OverlayElement) (time? : Option ℝ)
    (kfs? : Option (List GlobalKeyframe)) : String → Option Snapshot :=
  (snapshotWrites time? kfs? els).foldl
    (fun m w => fun i => if i = w.1 then some w.2 else m i) (fun _ => none)

/-- The elements of a tree in the order `flatten` visits them. -/
def flattenEls : List OverlayElement → List OverlayElement
  | [] => []
  | .mk s ch :: rest => .mk s ch :: (flattenEls ch ++ flattenEls rest)

/-- `addGlobalKeyframe` from the source: build the new keyframe (time
rounded to 2 decimals, linear easing, snapshot of all elements at the
requested time against the existing keyframes), drop every existing
keyframe within `0.01` of the requested time, and append the new one. -/
noncomputable def addGlobalKeyframe (kfs : List GlobalKeyframe) (newId : String)
    (elements : List OverlayElement) (time : ℝ) : List GlobalKeyframe :=
  let kf : GlobalKeyframe :=
    { id := newId
      time := (round (time * 100) : ℤ) / 100
      easing := .linear
      elementStates := snapshotAllElements elements (some time) (some kfs) }
  let filtered := kfs.filter fun k => decide (|k.time - time| > 0.01)
  filtered ++ [kf]

/-! ### Transform/resize geometry engine (src/unnamed/part_000, TransformBox) -/

/-- A resize handle direction string (`'n'`, `'se'`, ...). -/
inductive ResizeHandle where
  | n
  | s
  | e
  | w
  | ne
  | nw
  | se
  | sw
  deriving DecidableEq

/-- `dir.includes('e')`. -/
def ResizeHandle.hasE : ResizeHandle → Bool
  | .e | .ne | .se => true
  | _ => false

/-- `dir.includes('w')`. -/
def ResizeHandle.hasW : ResizeHandle → Bool
  | .w | .nw | .sw => true
  | _ => false

/-- `dir.includes('s')`. -/
def ResizeHandle.hasS : ResizeHandle → Bool
  | .s | .se | .sw => true
  | _ => false

/-- `dir.includes('n')`. -/
def ResizeHandle.hasN : ResizeHandle → Bool
  | .n | .ne | .nw => true
  | _ => false

/-- The geometry written by `onUpdate` at the end of a resize step. -/
structure GeomUpdate where
  width : ℤ
  height : ℤ
  x : ℤ
  y : ℤ
  deriving DecidableEq

/-- One `onMove` step of `handleResizeDown`: rotate the pointer delta into
the local frame, grow/shrink the active edges (minimum size 4), derive the
world-space center shift, clamp the center into the container, and round
everything. -/
noncomputable def handleResizeMove (dir : ResizeHandle)
    (elX elY elW elH rot scale containerW containerH pdx pdy : ℝ) : GeomUpdate :=
  let startW := max 0 elW
  let startH := max 0 elH
  let rad := rot * Real.pi / 180
  let initialCx := elX + startW / 2
  let initialCy := elY + startH / 2
  let dx := pdx / scale
  let dy := pdy / scale
  let dxLocal := dx * Real.cos (-rad) - dy * Real.sin (-rad)
  let dyLocal := dx * Real.sin (-rad) + dy * Real.cos (-rad)
  let dw0 : ℝ := 0
  let dw1 := if dir.hasE then dxLocal else dw0
  let dw := if dir.hasW then -dxLocal else dw1
  let dh0 : ℝ := 0
  let dh1 := if dir.hasS then dyLocal else dh0
  let dh := if dir.hasN then -dyLocal else dh1
  let newW := max 4 (startW + dw)
  let newH := max 4 (startH + dh)
  let adw := newW - startW
  let adh := newH - startH
  let dcxL0 : ℝ := 0
  let dcxL1 := if dir.hasE then adw / 2 else dcxL0
  let dcxL := if dir.hasW then -adw / 2 else dcxL1
  let dcyL0 : ℝ := 0
  let dcyL1 := if dir.hasS then adh / 2 else dcyL0
  let dcyL := if dir.hasN then -adh / 2 else dcyL1
  let dcx := dcxL * Real.cos rad - dcyL * Real.sin rad
  let dcy := dcxL * Real.sin rad + dcyL * Real.cos rad
  let nx0 := initialCx + dcx - newW / 2
  let ny0 := initialCy + dcy - newH / 2
  let cx := nx0 + newW / 2
  let cy := ny0 + newH / 2
  let nx1 := if cx < 0 then -newW / 2 else nx0
  let nx2 := if cx > containerW then containerW - newW / 2 else nx1
  let ny1 := if cy < 0 then -newH / 2 else ny0
  let ny2 := if cy > containerH then containerH - newH / 2 else ny1
  ⟨round newW, round newH, round nx2, round ny2⟩

/-- One `onMove` step of `handleDragDown`: shift by the scaled pointer
delta, then clamp the element's center into the container (no rounding). -/
noncomputable def handleDragMove
    (elX elY elW elH scale containerW containerH pdx pdy : ℝ) : ℝ × ℝ :=
  let dx := pdx / scale
  let dy := pdy / scale
  let nx0 := elX + dx
  let ny0 := elY + dy
  let cx := nx0 + elW / 2
  let cy := ny0 + elH / 2
  let nx1 := if cx < 0 then -elW / 2 else nx0
  let nx2 := if cx > containerW then containerW - elW / 2 else nx1
  let ny1 := if cy < 0 then -elH / 2 else ny0
  let ny2 := if cy > containerH then containerH - elH / 2 else ny1
  (nx2, ny2)


/-! ### Sample inputs used by the concrete scenarios and witnesses -/

/-- A snapshot assigning only `x = v`. -/
noncomputable def xSnap (v : ℝ) : Snapshot := fun p =>
  if p = .x then some (.num v) else none


/-- A keyframe at time `t` with easing `e` assigning `x = v` to element `"e"`. -/
noncomputable def kfX (id : String) (t : ℝ) (e : EasingType) (v : ℝ) : GlobalKeyframe :=
  ⟨id, t, e, fun i => if i = "e" then some (xSnap v) else none⟩


/-- A plain sample element with all optional fields absent. -/
noncomputable def sampleEl : OverlayElement :=
  .mk ⟨"e", 0, 0, 100, 100, 0, 1, none, none, none, none, none, none, none, none, none,
    none, none, none, none, none, none⟩ []

/-- A snapshot assigning only `y = 10`. -/
noncomputable def snapYOnly : Snapshot := fun p => if p = .y then some (.num 10) else none


/-- A snapshot assigning only `fill = "#224488"`. -/
noncomputable def snapFillOnly : Snapshot := fun p =>
  if p = .fill then some (.str "#224488") else none


/-- A keyframe at time 0 holding `snapYOnly` for element `"e"`. -/
noncomputable def kfPrevW : GlobalKeyframe :=
  ⟨"p", 0, .linear, fun i => if i = "e" then some snapYOnly else none⟩


/-- A keyframe at time 2 holding `snapFillOnly` for element `"e"`. -/
noncomputable def kfNextW : GlobalKeyframe :=
  ⟨"n", 2, .linear, fun i => if i = "e" then some snapFillOnly else none⟩


/-- A sample element whose base `y` is 20 and base `fill` is `"#000000"`. -/
noncomputable def baseEl : OverlayElement :=
  .mk ⟨"e", 0, 20, 100, 100, 0, 1, none, none, none, none, none, none, none, none, none,
    none, none, none, some "#000000", none, none⟩ []

/-- A snapshot assigning only `opacity = 0.5`. -/
noncomputable def opacityHalfSnap : Snapshot := fun p =>
  if p = .opacity then some (.num 0.5) else none


/-- A single keyframe at `t = 3` assigning `opacity 0.5` to element `"e"`. -/
noncomputable def kfOpacity3 : GlobalKeyframe :=
  ⟨"k3", 3, .linear, fun i => if i = "e" then some opacityHalfSnap else none⟩

/-- A keyframe at time 1 with an empty snapshot map. -/
noncomputable def kf0 : GlobalKeyframe := ⟨"k0", 1, .linear, fun _ => none⟩

/-- A childless sample element with id `"c"`. -/
noncomputable def wElChild : OverlayElement :=
  .mk ⟨"c", 1, 2, 3, 4, 0, 1, none, none, none, none, none, none, none, none, none,
    none, none, none, none, none, none⟩ []


/-- A sample element with id `"a"`, `blur = 0`, `fontSize = 24`, empty `fill`,
and one child. -/
noncomputable def wElRoot : OverlayElement :=
  .mk ⟨"a", 5, 6, 7, 8, 0, 1, none, none, none, none, some 24, none, none, some 0, none,
    none, none, none, some "", none, none⟩ [wElChild]

/-! ### General helper lemmas -/

lemma round_eq_of (x : ℝ) (n : ℤ) (h1 : (n : ℝ) ≤ x + 1 / 2) (h2 : x + 1 / 2 < n + 1) :
    round x = n := by
  rw [round_eq]
  exact Int.floor_eq_iff.mpr ⟨h1, h2⟩

lemma emod_as_mod (a b : ℤ) : a.emod b = a % b := rfl

/-! ### Claim C5: the easing table -/

/-- Claim C5, easing table witness is below.  For every `t ∈ [0,1]` the
source `easingFn` returns exactly the spec's formula for each easing kind —
linear `t`, ease-in `t²`, ease-out `t(2−t)`, ease-in-out `2t²`/`−1+(4−2t)t`,
the four-segment bounce with breakpoints `1/2.75`, `2/2.75`, `2.5/2.75`,
elastic `0`/`1` at the endpoints else `−2^(10(t−1))·sin((t−1.1)·5π)` — and
every kind outside the table (`cubic-bezier`, `step-start`, `step-end`)
falls back to linear. -/
theorem easingFn_matches_spec (t : ℝ) (h0 : 0 ≤ t) (h1 : t ≤ 1) (k : EasingType) :
    easingFn t k = easeSpec t k := by
  cases k <;> simp only [easingFn, easeSpec]
  · ring
  · split <;> ring
  · split_ifs <;> first | rfl | (rw [mul_assoc]; exact neg_mul _ _)

/-- Witness for C5 at `t = 1/4`: the hypotheses `0 ≤ 1/4 ≤ 1` are
discharged concretely and the ease-in value evaluates to `1/16`. -/
theorem easingFn_matches_spec_witness :
    easingFn (1 / 4) .easeIn = easeSpec (1 / 4) .easeIn ∧ easeSpec (1 / 4) .easeIn = 1 / 16 := by
  refine ⟨easingFn_matches_spec (1 / 4) (by norm_num) (by norm_num) .easeIn, ?_⟩
  simp only [easeSpec]
  norm_num

/-! ### Claim C9: hexToRgb fallback and normal parsing -/

lemma mem_removeFirstHash : ∀ (cs : List Char) (c : Char), c ∈ removeFirstHash cs → c ∈ cs := by
  intro cs
  induction cs with
  | nil => intro c hc; simp [removeFirstHash] at hc
  | cons a rest ih =>
    intro c hc
    by_cases ha : a = '#'
    · simp [removeFirstHash, ha] at hc
      simp [hc]
    · simp [removeFirstHash, ha] at hc
      rcases hc with h | h
      · simp [h]
      · exact List.mem_cons_of_mem _ (ih c h)

lemma stripHexMarker_of_snd (a b : Char) (rest : List Char) (hx : b ≠ 'x') (hX : b ≠ 'X') :
    stripHexMarker (a :: b :: rest) = a :: b :: rest := by
  unfold stripHexMarker
  split
  · next heq => injection heq with h1 h2; injection h2 with h3 _; exact absurd h3 hx
  · next heq => injection heq with h1 h2; injection h2 with h3 _; exact absurd h3 hX
  · rfl

lemma parseIntHex_none_of_bad_head (c : Char) (cs : List Char)
    (hw : isJsWhitespace c = false) (hp : c ≠ '+') (hm : c ≠ '-')
    (hd : hexDigitVal c = none) : parseIntHex (c :: cs) = none := by
  have hz : c ≠ '0' := by
    intro h
    rw [h] at hd
    simp [hexDigitVal] at hd
  simp only [parseIntHex, List.dropWhile_cons, hw, Bool.false_eq_true, if_false]
  have hsign : (match c :: cs with | '-' :: rest => rest | '+' :: rest => rest | _ => c :: cs) = c :: cs := by
    split
    · next heq => injection heq with h1 _; exact absurd h1 hm
    · next heq => injection heq with h1 _; exact absurd h1 hp
    · rfl
  rw [hsign]
  have hstrip : stripHexMarker (c :: cs) = c :: cs := by
    unfold stripHexMarker
    split
    · next heq => injection heq with h1 _; exact absurd h1 hz
    · next heq => injection heq with h1 _; exact absurd h1 hz
    · rfl
  rw [hstrip]
  simp [hd]

lemma hexToRgb_zero_of_bad_head (s : String) (c : Char) (rest : List Char)
    (hclean : removeFirstHash s.data = c :: rest)
    (hw : isJsWhitespace c = false) (hp : c ≠ '+') (hm : c ≠ '-')
    (hd : hexDigitVal c = none) : hexToRgb s = ⟨0, 0, 0⟩ := by
  simp only [hexToRgb, hclean]
  have hfull : ∃ tail, (if (c :: rest).length = 3 then dupChars (c :: rest) else padEndZeros (c :: rest)) = c :: tail := by
    by_cases hlen : (c :: rest).length = 3
    · exact ⟨c :: dupChars rest, by rw [if_pos hlen]; simp [dupChars]⟩
    · exact ⟨rest ++ List.replicate (6 - (c :: rest).length) '0', by rw [if_neg hlen]; simp [padEndZeros]⟩
  obtain ⟨tail, hfull⟩ := hfull
  rw [hfull]
  rw [show (c :: tail).take 6 = c :: tail.take 5 from rfl]
  rw [parseIntHex_none_of_bad_head c _ hw hp hm hd]
  simp [Int.zero_fdiv, Int.zero_emod]
  decide

lemma hexDigitVal_toHexDigit : ∀ d : ℕ, d < 16 → hexDigitVal (toHexDigit d) = some d := by decide

lemma toHexDigit_props : ∀ d : ℕ, d < 16 →
    isJsWhitespace (toHexDigit d) = false ∧ toHexDigit d ≠ '+' ∧ toHexDigit d ≠ '-' ∧
    toHexDigit d ≠ 'x' ∧ toHexDigit d ≠ 'X' := by decide

lemma parseIntHex_digits (h1 h2 : Char) (rest : List Char)
    (hw : isJsWhitespace h1 = false) (hp : h1 ≠ '+') (hm : h1 ≠ '-')
    (hx : h2 ≠ 'x') (hX : h2 ≠ 'X') (hd : (hexDigitVal h1).isSome) :
    parseIntHex (h1 :: h2 :: rest) = some ((hexDigitsVal (h1 :: h2 :: rest) 0 : ℕ) : ℤ) := by
  simp only [parseIntHex, List.dropWhile_cons, hw, Bool.false_eq_true, if_false]
  have hsign : (match h1 :: h2 :: rest with | '-' :: r => r | '+' :: r => r | _ => h1 :: h2 :: rest) = h1 :: h2 :: rest := by
    split
    · next heq => injection heq with ha _; exact absurd ha hm
    · next heq => injection heq with ha _; exact absurd ha hp
    · rfl
  have hsgn : (match h1 :: h2 :: rest with | '-' :: _ => (-1 : ℤ) | _ => 1) = 1 := by
    split
    · next heq => injection heq with ha _; exact absurd ha hm
    · rfl
  rw [hsign, stripHexMarker_of_snd h1 h2 rest hx hX, hsgn]
  simp [hd]

lemma byte_extract (A B C : ℕ) (hA : A < 256) (hB : B < 256) (hC : C < 256) :
    ((((A * 65536 + B * 256 + C : ℕ) : ℤ).fdiv 65536).emod 256).toNat = A
    ∧ ((((A * 65536 + B * 256 + C : ℕ) : ℤ).fdiv 256).emod 256).toNat = B
    ∧ (((A * 65536 + B * 256 + C : ℕ) : ℤ).emod 256).toNat = C := by
  refine ⟨?_, ?_, ?_⟩
  · rw [Int.fdiv_eq_ediv _ (by norm_num), emod_as_mod]; omega
  · rw [Int.fdiv_eq_ediv _ (by norm_num), emod_as_mod]; omega
  · rw [emod_as_mod]; omega

lemma hexToRgb_six_digits (d1 d2 d3 d4 d5 d6 : ℕ)
    (b1 : d1 < 16) (b2 : d2 < 16) (b3 : d3 < 16) (b4 : d4 < 16) (b5 : d5 < 16) (b6 : d6 < 16) :
    hexToRgb ⟨'#' :: [toHexDigit d1, toHexDigit d2, toHexDigit d3, toHexDigit d4, toHexDigit d5, toHexDigit d6]⟩
      = ⟨16 * d1 + d2, 16 * d3 + d4, 16 * d5 + d6⟩ := by
  obtain ⟨w1, p1, m1, x1, X1⟩ := toHexDigit_props d1 b1
  obtain ⟨w2, p2, m2, x2, X2⟩ := toHexDigit_props d2 b2
  simp only [hexToRgb]
  rw [show removeFirstHash ['#', toHexDigit d1, toHexDigit d2, toHexDigit d3, toHexDigit d4, toHexDigit d5, toHexDigit d6]
      = [toHexDigit d1, toHexDigit d2, toHexDigit d3, toHexDigit d4, toHexDigit d5, toHexDigit d6] from by simp [removeFirstHash]]
  rw [if_neg (by simp)]
  rw [show padEndZeros [toHexDigit d1, toHexDigit d2, toHexDigit d3, toHexDigit d4, toHexDigit d5, toHexDigit d6]
      = [toHexDigit d1, toHexDigit d2, toHexDigit d3, toHexDigit d4, toHexDigit d5, toHexDigit d6] from by simp [padEndZeros]]
  rw [show ([toHexDigit d1, toHexDigit d2, toHexDigit d3, toHexDigit d4, toHexDigit d5, toHexDigit d6]).take 6
      = [toHexDigit d1, toHexDigit d2, toHexDigit d3, toHexDigit d4, toHexDigit d5, toHexDigit d6] from rfl]
  rw [parseIntHex_digits _ _ _ w1 p1 m1 x2 X2 (by rw [hexDigitVal_toHexDigit d1 b1]; rfl)]
  have hval : hexDigitsVal [toHexDigit d1, toHexDigit d2, toHexDigit d3, toHexDigit d4, toHexDigit d5, toHexDigit d6] 0
      = (16 * d1 + d2) * 65536 + (16 * d3 + d4) * 256 + (16 * d5 + d6) := by
    simp only [hexDigitsVal, hexDigitVal_toHexDigit d1 b1, hexDigitVal_toHexDigit d2 b2,
      hexDigitVal_toHexDigit d3 b3, hexDigitVal_toHexDigit d4 b4,
      hexDigitVal_toHexDigit d5 b5, hexDigitVal_toHexDigit d6 b6]
    ring
  rw [hval]
  have := byte_extract (16 * d1 + d2) (16 * d3 + d4) (16 * d5 + d6) (by omega) (by omega) (by omega)
  simp only [Option.getD_some]
  rw [this.1, this.2.1, this.2.2]

lemma removeFirstHash_cons_hash (cs : List Char) : removeFirstHash ('#' :: cs) = cs := by
  simp [removeFirstHash]

lemma hexToRgb_three_digit_dup (c1 c2 c3 : Char) :
    hexToRgb ⟨['#', c1, c2, c3]⟩ = hexToRgb ⟨['#', c1, c1, c2, c2, c3, c3]⟩ := by
  simp [hexToRgb, removeFirstHash, dupChars, padEndZeros]

lemma padEndZeros_idem (cs : List Char) :
    padEndZeros (cs ++ List.replicate (6 - cs.length) '0') = padEndZeros cs := by
  simp only [padEndZeros, List.length_append, List.length_replicate, List.append_assoc,
    ← List.replicate_add]
  congr 2
  omega

lemma hexToRgb_pad (cs : List Char) (hlen : cs.length ≠ 3) :
    hexToRgb ⟨'#' :: cs⟩ = hexToRgb ⟨'#' :: (cs ++ List.replicate (6 - cs.length) '0')⟩ := by
  simp only [hexToRgb]
  rw [removeFirstHash_cons_hash, removeFirstHash_cons_hash]
  rw [if_neg hlen, if_neg (by simp; omega), padEndZeros_idem]

/-- Claim C9 (amended).  `hexToRgb` never fails, and: (1) every input
containing no hex digit, whitespace or sign characters yields `RGB(0,0,0)`;
(2) a `#` followed by six hex digits is parsed into the three bytes
normally; (3) a 3-digit input parses as its digit-doubled 6-digit form;
(4) any non-3-length input parses as its zero-padded 6-character form.
The original claim's "every malformed input yields RGB(0,0,0)" is refuted
by `hexToRgb_malformed_counterexample`: a malformed string with a leading
hex-digit prefix (e.g. `"1x"`) is parsed from that prefix instead. -/
theorem hexToRgb_fallback_and_parse :
    (∀ s : String, (∀ c ∈ s.data, hexDigitVal c = none ∧ isJsWhitespace c = false ∧ c ≠ '+' ∧ c ≠ '-') →
        hexToRgb s = ⟨0, 0, 0⟩)
    ∧ (∀ d1 d2 d3 d4 d5 d6 : ℕ, d1 < 16 → d2 < 16 → d3 < 16 → d4 < 16 → d5 < 16 → d6 < 16 →
        hexToRgb ⟨'#' :: [toHexDigit d1, toHexDigit d2, toHexDigit d3, toHexDigit d4, toHexDigit d5, toHexDigit d6]⟩
          = ⟨16 * d1 + d2, 16 * d3 + d4, 16 * d5 + d6⟩)
    ∧ (∀ c1 c2 c3 : Char, hexToRgb ⟨['#', c1, c2, c3]⟩ = hexToRgb ⟨['#', c1, c1, c2, c2, c3, c3]⟩)
    ∧ (∀ cs : List Char, cs.length ≠ 3 →
        hexToRgb ⟨'#' :: cs⟩ = hexToRgb ⟨'#' :: (cs ++ List.replicate (6 - cs.length) '0')⟩) := by
  refine ⟨?_, hexToRgb_six_digits, hexToRgb_three_digit_dup, hexToRgb_pad⟩
  intro s h
  cases hclean : removeFirstHash s.data with
  | nil =>
    simp only [hexToRgb]
    rw [hclean]
    decide
  | cons c rest =>
    have hmem : c ∈ removeFirstHash s.data := by rw [hclean]; exact List.mem_cons_self c rest
    have hc := h c (mem_removeFirstHash _ _ hmem)
    exact hexToRgb_zero_of_bad_head s c rest hclean hc.2.1 hc.2.2.1 hc.2.2.2 hc.1

/-- Counterexample to claim C9 as stated: `"1x"` is a malformed, non-hex
color string, yet `hexToRgb` parses the leading digit `1` and returns
`RGB(0,0,1)`, not `RGB(0,0,0)`. -/
theorem hexToRgb_malformed_counterexample :
    hexToRgb "1x" = ⟨0, 0, 1⟩ ∧ hexToRgb "1x" ≠ ⟨0, 0, 0⟩ := by
  constructor
  · decide
  · decide

/-- Witness for C9: the no-hex-digit branch at the concrete malformed
string `"zz!!"` and the 6-digit branch at `#ff8000`. -/
theorem hexToRgb_fallback_and_parse_witness :
    hexToRgb "zz!!" = ⟨0, 0, 0⟩ ∧ hexToRgb "#ff8000" = ⟨255, 128, 0⟩ := by
  constructor
  · exact hexToRgb_fallback_and_parse.1 "zz!!" (by decide)
  · have h := hexToRgb_fallback_and_parse.2.1 15 15 8 0 0 0 (by norm_num) (by norm_num)
      (by norm_num) (by norm_num) (by norm_num) (by norm_num)
    have hs : ("#ff8000" : String)
        = ⟨'#' :: [toHexDigit 15, toHexDigit 15, toHexDigit 8, toHexDigit 0, toHexDigit 0, toHexDigit 0]⟩ := by decide
    rw [hs, h]

/-! ### Claim C6: se-resize on an unrotated element -/

/-- Claim C6 (amended).  A resize gesture with handle `se` on an unrotated
element leaves the element's north edge (top `y`) and west edge (left `x`)
unchanged and only changes width/height (hence the east/south edges),
provided the element's `x`/`y` are integers (the outputs are rounded to
integers) and the new center stays inside the container (otherwise the
center-clamping moves the west/north edge, see
`resize_se_unrotated_counterexample`). -/
theorem resize_se_unrotated_edges_fixed
    (elX elY elW elH scale containerW containerH pdx pdy : ℝ)
    (kx ky : ℤ) (hx : elX = kx) (hy : elY = ky)
    (hcx1 : 0 ≤ elX + max 4 (max 0 elW + pdx / scale) / 2)
    (hcx2 : elX + max 4 (max 0 elW + pdx / scale) / 2 ≤ containerW)
    (hcy1 : 0 ≤ elY + max 4 (max 0 elH + pdy / scale) / 2)
    (hcy2 : elY + max 4 (max 0 elH + pdy / scale) / 2 ≤ containerH) :
    (handleResizeMove .se elX elY elW elH 0 scale containerW containerH pdx pdy).x = kx
    ∧ (handleResizeMove .se elX elY elW elH 0 scale containerW containerH pdx pdy).y = ky
    ∧ (handleResizeMove .se elX elY elW elH 0 scale containerW containerH pdx pdy).width
        = round (max 4 (max 0 elW + pdx / scale))
    ∧ (handleResizeMove .se elX elY elW elH 0 scale containerW containerH pdx pdy).height
        = round (max 4 (max 0 elH + pdy / scale)) := by
  refine ⟨?_, ?_, ?_, ?_⟩
  · simp only [handleResizeMove, ResizeHandle.hasE, ResizeHandle.hasW, ResizeHandle.hasS,
      ResizeHandle.hasN]
    simp only [zero_mul, zero_div, neg_zero, Real.cos_zero, Real.sin_zero, mul_one, mul_zero,
      sub_zero, add_zero, zero_add, one_mul, if_true, if_false, Bool.false_eq_true]
    split_ifs with h1 h2
    · exact absurd h1 (by push_neg; linarith)
    · exact absurd h2 (by push_neg; linarith)
    · rw [show elX + (max 0 elW) / 2 + (max 4 (max 0 elW + pdx / scale) - max 0 elW) / 2
          - (max 4 (max 0 elW + pdx / scale)) / 2 = elX from by ring, hx, round_intCast]
  · simp only [handleResizeMove, ResizeHandle.hasE, ResizeHandle.hasW, ResizeHandle.hasS,
      ResizeHandle.hasN]
    simp only [zero_mul, zero_div, neg_zero, Real.cos_zero, Real.sin_zero, mul_one, mul_zero,
      sub_zero, add_zero, zero_add, one_mul, if_true, if_false, Bool.false_eq_true]
    split_ifs with h1 h2
    · exact absurd h1 (by push_neg; linarith)
    · exact absurd h2 (by push_neg; linarith)
    · rw [show elY + (max 0 elH) / 2 + (max 4 (max 0 elH + pdy / scale) - max 0 elH) / 2
          - (max 4 (max 0 elH + pdy / scale)) / 2 = elY from by ring, hy, round_intCast]
  · simp only [handleResizeMove, ResizeHandle.hasE, ResizeHandle.hasW, ResizeHandle.hasS,
      ResizeHandle.hasN]
    simp only [zero_mul, zero_div, neg_zero, Real.cos_zero, Real.sin_zero, mul_one, mul_zero,
      sub_zero, add_zero, zero_add, one_mul, if_true, if_false, Bool.false_eq_true]
  · simp only [handleResizeMove, ResizeHandle.hasE, ResizeHandle.hasW, ResizeHandle.hasS,
      ResizeHandle.hasN]
    simp only [zero_mul, zero_div, neg_zero, Real.cos_zero, Real.sin_zero, mul_one, mul_zero,
      sub_zero, add_zero, zero_add, one_mul, if_true, if_false, Bool.false_eq_true]

/-- Counterexample to claim C6 as stated: on a 100×100 container, dragging
the `se` handle of the unrotated element at `(0,0)` sized `100×100` by
`(200,0)` yields width `300` but also moves the west edge from `x = 0` to
`x = -50`, because only the element's center is kept inside the container. -/
theorem resize_se_unrotated_counterexample :
    handleResizeMove .se 0 0 100 100 0 1 100 100 200 0 = ⟨300, 100, -50, 0⟩
    ∧ (-50 : ℤ) ≠ 0 := by
  refine ⟨?_, by decide⟩
  simp only [handleResizeMove, ResizeHandle.hasE, ResizeHandle.hasW, ResizeHandle.hasS,
    ResizeHandle.hasN]
  simp only [zero_mul, zero_div, neg_zero, Real.cos_zero, Real.sin_zero, mul_one, mul_zero,
    sub_zero, add_zero, zero_add, one_mul, if_true, if_false, Bool.false_eq_true]
  norm_num [max_def]
  exact round_eq_of _ _ (by push_cast; norm_num) (by push_cast; norm_num)

/-- Witness for C6 at a concrete in-bounds gesture: element `(10,10)` sized
`20×20`, container `100×100`, drag `(5,5)` — `x` and `y` stay `10`, the
width becomes `25`. -/
theorem resize_se_unrotated_edges_fixed_witness :
    (handleResizeMove .se 10 10 20 20 0 1 100 100 5 5).x = 10
    ∧ (handleResizeMove .se 10 10 20 20 0 1 100 100 5 5).y = 10
    ∧ (handleResizeMove .se 10 10 20 20 0 1 100 100 5 5).width = 25 := by
  have h := resize_se_unrotated_edges_fixed 10 10 20 20 1 100 100 5 5 10 10
    (by norm_num) (by norm_num) (by norm_num [max_def]) (by norm_num [max_def])
    (by norm_num [max_def]) (by norm_num [max_def])
  refine ⟨h.1, h.2.1, ?_⟩
  rw [h.2.2.1]
  rw [show max 4 (max 0 (20:ℝ) + 5 / 1) = 25 from by norm_num [max_def]]
  norm_num

/-! ### Claim C7: n-handle resize on an element rotated 90° -/

/-- Claim C7 (amended).  Dragging handle `n` on an element rotated 90°
responds only to the pointer's x-delta (the y-delta has no effect, as
local north maps to world east/west): the height grows by the x-delta,
the stored `x` shifts by *half* the x-delta and the stored `y` by *minus
half* the x-delta (keeping the world-space center `y` and the south edge
fixed), and the width is unchanged — the stored `x` does not change by
the full drag delta magnitude, see `resize_n_rot90_counterexample`. -/
theorem resize_n_rot90_halves
    (elX elY elW elH scale containerW containerH pdx pdy : ℝ)
    (hW : 4 ≤ elW) (hH0 : 0 ≤ elH) (hH4 : 4 ≤ elH + pdx / scale)
    (hcx1 : 0 ≤ elX + elW / 2 + pdx / scale / 2)
    (hcx2 : elX + elW / 2 + pdx / scale / 2 ≤ containerW)
    (hcy1 : 0 ≤ elY + elH / 2)
    (hcy2 : elY + elH / 2 ≤ containerH) :
    (handleResizeMove .n elX elY elW elH 90 scale containerW containerH pdx pdy).x
      = round (elX + pdx / scale / 2)
    ∧ (handleResizeMove .n elX elY elW elH 90 scale containerW containerH pdx pdy).y
      = round (elY - pdx / scale / 2)
    ∧ (handleResizeMove .n elX elY elW elH 90 scale containerW containerH pdx pdy).width
      = round elW
    ∧ (handleResizeMove .n elX elY elW elH 90 scale containerW containerH pdx pdy).height
      = round (elH + pdx / scale) := by
  have hW0 : (0:ℝ) ⊔ elW = elW := max_eq_right (by linarith)
  have hW4 : (4:ℝ) ⊔ elW = elW := max_eq_right hW
  have hH0m : (0:ℝ) ⊔ elH = elH := max_eq_right hH0
  have hH4m : (4:ℝ) ⊔ (elH + pdx / scale) = elH + pdx / scale := max_eq_right hH4
  refine ⟨?_, ?_, ?_, ?_⟩
  · simp only [handleResizeMove, ResizeHandle.hasE, ResizeHandle.hasW, ResizeHandle.hasS,
      ResizeHandle.hasN]
    simp only [show (90:ℝ) * Real.pi / 180 = Real.pi / 2 from by ring, Real.cos_pi_div_two,
      Real.sin_pi_div_two, Real.cos_neg, Real.sin_neg, neg_neg, mul_one, mul_zero, zero_mul,
      sub_zero, add_zero, zero_add, one_mul, zero_sub, if_true, if_false, Bool.false_eq_true,
      neg_zero, mul_neg]
    rw [hW0, hW4, hH0m, hH4m]
    split_ifs with h1 h2
    · exact absurd h1 (by push_neg; linarith)
    · exact absurd h2 (by push_neg; linarith)
    · rw [show elX + elW / 2 + -(-(elH + pdx / scale - elH) / 2) - elW / 2
          = elX + pdx / scale / 2 from by ring]
  · simp only [handleResizeMove, ResizeHandle.hasE, ResizeHandle.hasW, ResizeHandle.hasS,
      ResizeHandle.hasN]
    simp only [show (90:ℝ) * Real.pi / 180 = Real.pi / 2 from by ring, Real.cos_pi_div_two,
      Real.sin_pi_div_two, Real.cos_neg, Real.sin_neg, neg_neg, mul_one, mul_zero, zero_mul,
      sub_zero, add_zero, zero_add, one_mul, zero_sub, if_true, if_false, Bool.false_eq_true,
      neg_zero, mul_neg]
    rw [hH0m, hH4m]
    split_ifs with h1 h2
    · exact absurd h1 (by push_neg; linarith)
    · exact absurd h2 (by push_neg; linarith)
    · rw [show elY + elH / 2 - (elH + pdx / scale) / 2 = elY - pdx / scale / 2 from by ring]
  · simp only [handleResizeMove, ResizeHandle.hasE, ResizeHandle.hasW, ResizeHandle.hasS,
      ResizeHandle.hasN]
    simp only [show (90:ℝ) * Real.pi / 180 = Real.pi / 2 from by ring, Real.cos_pi_div_two,
      Real.sin_pi_div_two, Real.cos_neg, Real.sin_neg, neg_neg, mul_one, mul_zero, zero_mul,
      sub_zero, add_zero, zero_add, one_mul, zero_sub, if_true, if_false, Bool.false_eq_true,
      neg_zero, mul_neg]
    rw [hW0, hW4]
  · simp only [handleResizeMove, ResizeHandle.hasE, ResizeHandle.hasW, ResizeHandle.hasS,
      ResizeHandle.hasN]
    simp only [show (90:ℝ) * Real.pi / 180 = Real.pi / 2 from by ring, Real.cos_pi_div_two,
      Real.sin_pi_div_two, Real.cos_neg, Real.sin_neg, neg_neg, mul_one, mul_zero, zero_mul,
      sub_zero, add_zero, zero_add, one_mul, zero_sub, if_true, if_false, Bool.false_eq_true,
      neg_zero, mul_neg]
    rw [hH0m, hH4m]

/-- Counterexample to claim C7 as stated: element at `(0,0)` sized `10×10`
rotated 90°, dragging handle `n` by `(4,0)` gives `x = 2` (half the drag
delta, not the full magnitude `4`) and `y = -2` (so `y` *does* change). -/
theorem resize_n_rot90_counterexample :
    handleResizeMove .n 0 0 10 10 90 1 1000 1000 4 0 = ⟨10, 14, 2, -2⟩
    ∧ ¬((2 : ℤ) = 0 + 4 ∨ (2 : ℤ) = 0 - 4) ∧ (-2 : ℤ) ≠ 0 := by
  refine ⟨?_, by decide, by decide⟩
  simp only [handleResizeMove, ResizeHandle.hasE, ResizeHandle.hasW, ResizeHandle.hasS,
    ResizeHandle.hasN]
  simp only [show (90:ℝ) * Real.pi / 180 = Real.pi / 2 from by ring, Real.cos_pi_div_two,
    Real.sin_pi_div_two, Real.cos_neg, Real.sin_neg, neg_neg, mul_one, mul_zero, zero_mul,
    sub_zero, add_zero, zero_add, one_mul, zero_sub, if_true, if_false, Bool.false_eq_true,
    neg_zero, mul_neg]
  norm_num [max_def]
  exact round_eq_of _ _ (by push_cast; norm_num) (by push_cast; norm_num)

/-- Witness for C7 at the concrete gesture of the counterexample: all four
hypotheses hold and the outputs evaluate to `(x,y,w,h) = (2,-2,10,14)`. -/
theorem resize_n_rot90_halves_witness :
    (handleResizeMove .n 0 0 10 10 90 1 1000 1000 4 0).x = 2
    ∧ (handleResizeMove .n 0 0 10 10 90 1 1000 1000 4 0).y = -2
    ∧ (handleResizeMove .n 0 0 10 10 90 1 1000 1000 4 0).width = 10
    ∧ (handleResizeMove .n 0 0 10 10 90 1 1000 1000 4 0).height = 14 := by
  have h := resize_n_rot90_halves 0 0 10 10 1 1000 1000 4 0
    (by norm_num) (by norm_num) (by norm_num) (by norm_num) (by norm_num)
    (by norm_num) (by norm_num)
  refine ⟨?_, ?_, ?_, ?_⟩
  · rw [h.1, show (0:ℝ) + 4 / 1 / 2 = 2 from by norm_num]
    norm_num
  · rw [h.2.1, show (0:ℝ) - 4 / 1 / 2 = -2 from by norm_num]
    exact round_eq_of _ _ (by push_cast; norm_num) (by push_cast; norm_num)
  · rw [h.2.2.1]
    norm_num
  · rw [h.2.2.2, show (10:ℝ) + 4 / 1 = 14 from by norm_num]
    norm_num

/-! ### Claim C8: center clamping for move and resize gestures -/

lemma round_center_bound (a w bound : ℝ)
    (h0 : 0 ≤ a + w / 2) (h1 : a + w / 2 ≤ bound) :
    -(3 / 4) ≤ (round a : ℝ) + (round w : ℝ) / 2
    ∧ (round a : ℝ) + (round w : ℝ) / 2 ≤ bound + 3 / 4 := by
  have ha := abs_sub_round a
  have hw := abs_sub_round w
  rw [abs_le] at ha hw
  constructor <;> linarith [ha.1, ha.2, hw.1, hw.2]

set_option maxHeartbeats 1000000 in
lemma handleResizeMove_center_clamped (dir : ResizeHandle)
    (elX elY elW elH rot scale containerW containerH pdx pdy : ℝ)
    (hcw : 0 ≤ containerW) (hch : 0 ≤ containerH) :
    ∃ w h a b : ℝ, handleResizeMove dir elX elY elW elH rot scale containerW containerH pdx pdy
        = ⟨round w, round h, round a, round b⟩
      ∧ 0 ≤ a + w / 2 ∧ a + w / 2 ≤ containerW ∧ 0 ≤ b + h / 2 ∧ b + h / 2 ≤ containerH := by
  simp only [handleResizeMove]
  refine ⟨_, _, _, _, rfl, ?_, ?_, ?_, ?_⟩ <;> split_ifs <;> linarith

/-- Claim C8 (amended).  A move gesture clamps exactly: the element's
center `(x + w/2, y + h/2)` ends inside `[0, containerW] × [0, containerH]`.
A resize gesture clamps the center *before* rounding position and size to
integers, so the final center lies within the container bounds extended by
`3/4` of a unit on each side — it can end slightly outside the exact
bounds, see `center_clamp_counterexample`. -/
theorem center_clamp_move_exact_resize_approx :
    (∀ elX elY elW elH scale containerW containerH pdx pdy : ℝ,
       0 ≤ containerW → 0 ≤ containerH →
       0 ≤ (handleDragMove elX elY elW elH scale containerW containerH pdx pdy).1 + elW / 2
       ∧ (handleDragMove elX elY elW elH scale containerW containerH pdx pdy).1 + elW / 2 ≤ containerW
       ∧ 0 ≤ (handleDragMove elX elY elW elH scale containerW containerH pdx pdy).2 + elH / 2
       ∧ (handleDragMove elX elY elW elH scale containerW containerH pdx pdy).2 + elH / 2 ≤ containerH)
    ∧ (∀ (dir : ResizeHandle) (elX elY elW elH rot scale containerW containerH pdx pdy : ℝ),
       0 ≤ containerW → 0 ≤ containerH →
       -(3 / 4) ≤ ((handleResizeMove dir elX elY elW elH rot scale containerW containerH pdx pdy).x : ℝ)
           + ((handleResizeMove dir elX elY elW elH rot scale containerW containerH pdx pdy).width : ℝ) / 2
       ∧ ((handleResizeMove dir elX elY elW elH rot scale containerW containerH pdx pdy).x : ℝ)
           + ((handleResizeMove dir elX elY elW elH rot scale containerW containerH pdx pdy).width : ℝ) / 2
           ≤ containerW + 3 / 4
       ∧ -(3 / 4) ≤ ((handleResizeMove dir elX elY elW elH rot scale containerW containerH pdx pdy).y : ℝ)
           + ((handleResizeMove dir elX elY elW elH rot scale containerW containerH pdx pdy).height : ℝ) / 2
       ∧ ((handleResizeMove dir elX elY elW elH rot scale containerW containerH pdx pdy).y : ℝ)
           + ((handleResizeMove dir elX elY elW elH rot scale containerW containerH pdx pdy).height : ℝ) / 2
           ≤ containerH + 3 / 4) := by
  constructor
  · intro elX elY elW elH scale containerW containerH pdx pdy hcw hch
    simp only [handleDragMove]
    refine ⟨?_, ?_, ?_, ?_⟩ <;> split_ifs <;> linarith
  · intro dir elX elY elW elH rot scale containerW containerH pdx pdy hcw hch
    obtain ⟨w, h, a, b, heq, c1, c2, c3, c4⟩ :=
      handleResizeMove_center_clamped dir elX elY elW elH rot scale containerW containerH pdx pdy hcw hch
    rw [heq]
    have hx := round_center_bound a w containerW c1 c2
    have hy := round_center_bound b h containerH c3 c4
    exact ⟨hx.1, hx.2, hy.1, hy.2⟩

/-- Counterexample to claim C8 as stated: on a 50×50 container, dragging
the `e` handle of the element at `(48,0)` sized `4×4` by `(0.8, 0)` rounds
to `x = 48`, `width = 5`, putting the center at `50.5 > 50` — after the
gesture the center is *outside* the container bounds. -/
theorem center_clamp_counterexample :
    handleResizeMove .e 48 0 4 4 0 1 50 50 0.8 0 = ⟨5, 4, 48, 0⟩
    ∧ ((48 : ℝ) + (5 : ℝ) / 2 > 50) := by
  refine ⟨?_, by norm_num⟩
  simp only [handleResizeMove, ResizeHandle.hasE, ResizeHandle.hasW, ResizeHandle.hasS,
    ResizeHandle.hasN]
  simp only [zero_mul, zero_div, neg_zero, Real.cos_zero, Real.sin_zero, mul_one, mul_zero,
    sub_zero, add_zero, zero_add, one_mul, if_true, if_false, Bool.false_eq_true]
  norm_num [max_def]
  constructor
  · exact round_eq_of _ _ (by push_cast; norm_num) (by push_cast; norm_num)
  · exact round_eq_of _ _ (by push_cast; norm_num) (by push_cast; norm_num)

/-- Witness for C8: the move bound at a concrete in-bounds drag and the
resize bound at the counterexample's gesture. -/
theorem center_clamp_move_exact_resize_approx_witness :
    ((handleDragMove 10 10 20 20 1 100 100 5 5).1 + (20 : ℝ) / 2 ≤ 100)
    ∧ (((handleResizeMove .e 48 0 4 4 0 1 50 50 0.8 0).x : ℝ)
        + ((handleResizeMove .e 48 0 4 4 0 1 50 50 0.8 0).width : ℝ) / 2 ≤ 50 + 3 / 4) :=
  ⟨(center_clamp_move_exact_resize_approx.1 10 10 20 20 1 100 100 5 5
      (by norm_num) (by norm_num)).2.1,
   (center_clamp_move_exact_resize_approx.2 .e 48 0 4 4 0 1 50 50 0.8 0
      (by norm_num) (by norm_num)).2.1⟩

/-! ### Claims C1-C4, C10: the keyframe interpolation engine -/

lemma getLastI_eq_getLast {α : Type} [Inhabited α] (l : List α) (h : l ≠ []) :
    l.getLastI = l.getLast h := by
  rw [List.getLastI_eq_getLast?, List.getLast?_eq_getLast l h, Option.iget_some]

/-- Claim C1.  For every non-empty keyframe list sorted ascending by time,
`interpolateElementFromGlobal` returns the first keyframe's snapshot for the
element verbatim when the query time is at most the first keyframe's time,
and the last keyframe's snapshot verbatim when the query time is at least
the last keyframe's time — no easing or interpolation is applied. -/
theorem interpolate_clamp_at_ends (kfs : List GlobalKeyframe) (hne : kfs ≠ [])
    (hsort : List.Sorted (fun a b : GlobalKeyframe => a.time < b.time) kfs)
    (elId : String) (el : OverlayElement) (time : ℝ) :
    (time ≤ (kfs.head hne).time →
      interpolateElementFromGlobal kfs elId el time = getState (kfs.head hne) elId)
    ∧ (time ≥ (kfs.getLast hne).time →
      interpolateElementFromGlobal kfs elId el time = getState (kfs.getLast hne) elId) := by
  have hle : List.Sorted (fun a b : GlobalKeyframe => a.time ≤ b.time) kfs :=
    hsort.imp (fun hab => le_of_lt hab)
  obtain ⟨k, rest, rfl⟩ := List.exists_cons_of_ne_nil hne
  simp only [interpolateElementFromGlobal]
  rw [if_neg (show ¬((k :: rest).length = 0) from by simp), hle.insertionSort_eq]
  constructor
  · intro ht
    rw [List.head_cons] at ht
    rw [show (k :: rest).headI = k from rfl, if_pos ht, List.head_cons]
  · intro ht
    rw [getLastI_eq_getLast _ hne]
    by_cases hfirst : time ≤ (k :: rest).headI.time
    · rw [if_pos hfirst]
      cases rest with
      | nil => rfl
      | cons k2 rest2 =>
        exfalso
        rw [show (k :: k2 :: rest2).headI = k from rfl] at hfirst
        have hlast_mem : (k :: k2 :: rest2).getLast hne ∈ k2 :: rest2 := by
          rw [List.getLast_cons (by simp)]
          exact List.getLast_mem _
        have hrel := List.rel_of_sorted_cons hsort _ hlast_mem
        rw [ge_iff_le] at ht
        linarith
    · rw [if_neg hfirst, if_pos ht]

/-- Witness for C1, the claim's own scenario: a single keyframe at `t = 3`
holding `{opacity: 0.5}` — queries at `t = 0` and `t = 10` both yield that
snapshot verbatim. -/
theorem interpolate_clamp_at_ends_witness :
    interpolateElementFromGlobal [kfOpacity3] "e" sampleEl 0 = opacityHalfSnap
    ∧ interpolateElementFromGlobal [kfOpacity3] "e" sampleEl 10 = opacityHalfSnap
    ∧ opacityHalfSnap .opacity = some (.num 0.5) := by
  have hs : List.Sorted (fun a b : GlobalKeyframe => a.time < b.time) [kfOpacity3] :=
    List.sorted_singleton _
  refine ⟨?_, ?_, rfl⟩
  · have h := (interpolate_clamp_at_ends [kfOpacity3] (by simp) hs "e" sampleEl 0).1
      (show (0:ℝ) ≤ kfOpacity3.time from by norm_num [kfOpacity3])
    rw [h]
    simp [getState, kfOpacity3, List.head_cons]
  · have h := (interpolate_clamp_at_ends [kfOpacity3] (by simp) hs "e" sampleEl 10).2
      (show (10:ℝ) ≥ kfOpacity3.time from by norm_num [kfOpacity3])
    rw [h]
    simp [getState, kfOpacity3]

lemma findBracket_locates : ∀ (pre : List GlobalKeyframe) (ka kb : GlobalKeyframe)
    (post : List GlobalKeyframe) (time : ℝ),
    List.Sorted (fun a b : GlobalKeyframe => a.time < b.time) (pre ++ ka :: kb :: post) →
    ka.time < time → time < kb.time →
    findBracket time (pre ++ ka :: kb :: post) = some (ka, kb)
  | [], ka, kb, post, time, _, h1, h2 => by
    simp only [List.nil_append, findBracket]
    rw [if_pos ⟨le_of_lt h1, le_of_lt h2⟩]
  | x :: pre', ka, kb, post, time, hs, h1, h2 => by
    rw [List.cons_append] at hs
    have htail := (List.sorted_cons.mp hs).2
    cases pre' with
    | nil =>
      simp only [List.nil_append] at htail ⊢
      rw [List.cons_append, List.nil_append]
      rw [show findBracket time (x :: ka :: kb :: post)
          = if x.time ≤ time ∧ time ≤ ka.time then some (x, ka)
            else findBracket time (ka :: kb :: post) from by simp [findBracket]]
      rw [if_neg (by push_neg; intro _; linarith)]
      exact findBracket_locates [] ka kb post time (by simpa using htail) h1 h2
    | cons y pre'' =>
      have hy : y.time < ka.time := by
        have := List.rel_of_sorted_cons (by rw [List.cons_append] at htail; exact htail) ka
          (by simp)
        simpa using this
      rw [List.cons_append, List.cons_append]
      rw [show findBracket time (x :: y :: (pre'' ++ ka :: kb :: post))
          = if x.time ≤ time ∧ time ≤ y.time then some (x, y)
            else findBracket time (y :: (pre'' ++ ka :: kb :: post)) from by simp [findBracket]]
      rw [if_neg (by push_neg; intro _; linarith)]
      rw [show y :: (pre'' ++ ka :: kb :: post) = (y :: pre'') ++ ka :: kb :: post from by simp]
      exact findBracket_locates (y :: pre'') ka kb post time htail h1 h2

lemma interpolate_bracket (pre : List GlobalKeyframe) (ka kb : GlobalKeyframe)
    (post : List GlobalKeyframe) (elId : String) (el : OverlayElement) (time : ℝ)
    (hs : List.Sorted (fun a b : GlobalKeyframe => a.time < b.time) (pre ++ ka :: kb :: post))
    (h1 : ka.time < time) (h2 : time < kb.time) :
    interpolateElementFromGlobal (pre ++ ka :: kb :: post) elId el time
      = interpPair ka kb elId el time := by
  have hle : List.Sorted (fun a b : GlobalKeyframe => a.time ≤ b.time) (pre ++ ka :: kb :: post) :=
    hs.imp (fun hab => le_of_lt hab)
  have hne : pre ++ ka :: kb :: post ≠ [] := by simp
  simp only [interpolateElementFromGlobal]
  rw [if_neg (show ¬((pre ++ ka :: kb :: post).length = 0) from by simp), hle.insertionSort_eq]
  have hhead : (pre ++ ka :: kb :: post).headI.time < time := by
    cases pre with
    | nil => simpa using h1
    | cons x pre' =>
      have hx : x.time < ka.time := by
        have := List.rel_of_sorted_cons (by rw [List.cons_append] at hs; exact hs) ka (by simp)
        simpa using this
      rw [List.cons_append]
      exact lt_trans hx h1
  rw [if_neg (by simp only [not_le]; exact hhead)]
  have hlast : time < (pre ++ ka :: kb :: post).getLastI.time := by
    rw [getLastI_eq_getLast _ hne, List.getLast_append' pre (ka :: kb :: post) (by simp),
      List.getLast_cons (by simp)]
    have hsub : List.Sorted (fun a b : GlobalKeyframe => a.time < b.time) (kb :: post) :=
      List.Pairwise.sublist
        ((List.sublist_cons_self ka (kb :: post)).trans (List.sublist_append_right pre _)) hs
    cases post with
    | nil => simpa using h2
    | cons p ps =>
      rw [List.getLast_cons (by simp)]
      have := List.rel_of_sorted_cons hsub _ (List.getLast_mem (l := p :: ps) (by simp))
      linarith
  rw [if_neg (by simp only [ge_iff_le, not_le]; exact hlast)]
  rw [findBracket_locates pre ka kb post time hs h1 h2]
  rfl

/-- Claim C2.  With a keyframe at `t = 0` holding `{x: 0}` and one at
`t = 2` holding `{x: 100}`, a query at `t = 1` yields `{x: 50}` when the
first keyframe's easing is linear and `{x: 25}` when it is ease-in
(normalized progress `0.5`, eased to `0.25` by squaring). -/
theorem interpolate_linear_easein_scenario :
    interpolateElementFromGlobal [kfX "a" 0 .linear 0, kfX "b" 2 .linear 100] "e" sampleEl 1
      = (fun p => if p = .x then some (.num 50) else none)
    ∧ interpolateElementFromGlobal [kfX "a" 0 .easeIn 0, kfX "b" 2 .linear 100] "e" sampleEl 1
      = (fun p => if p = .x then some (.num 25) else none) := by
  constructor
  · rw [show [kfX "a" 0 .linear 0, kfX "b" 2 .linear 100]
        = [] ++ kfX "a" 0 .linear 0 :: kfX "b" 2 .linear 100 :: [] from rfl]
    rw [interpolate_bracket [] _ _ [] "e" sampleEl 1
      (by simp [List.sorted_cons, kfX]) (by norm_num [kfX]) (by norm_num [kfX])]
    funext p
    cases p <;>
      simp [interpPair, getState, kfX, xSnap, easingFn, numWithFallback, Value.asNum,
        NUMERIC_KEYFRAME_PROPS, COLOR_KEYFRAME_PROPS] <;> norm_num
  · rw [show [kfX "a" 0 .easeIn 0, kfX "b" 2 .linear 100]
        = [] ++ kfX "a" 0 .easeIn 0 :: kfX "b" 2 .linear 100 :: [] from rfl]
    rw [interpolate_bracket [] _ _ [] "e" sampleEl 1
      (by simp [List.sorted_cons, kfX]) (by norm_num [kfX]) (by norm_num [kfX])]
    funext p
    cases p <;>
      simp [interpPair, getState, kfX, xSnap, easingFn, numWithFallback, Value.asNum,
        NUMERIC_KEYFRAME_PROPS, COLOR_KEYFRAME_PROPS] <;> norm_num

lemma color_not_numeric : ∀ p ∈ COLOR_KEYFRAME_PROPS, p ∉ NUMERIC_KEYFRAME_PROPS := by decide

/-- Claim C3.  For a query time strictly inside a bracketing pair, a
property present in exactly one of the two bracketing snapshots is
interpolated against the element's persisted base value on the missing
side (never against zero) — linearly for numeric properties, via
`lerpColor` for color properties — and a property present in neither
snapshot produces no entry in the override map. -/
theorem interpolate_missing_side_base_fallback
    (pre : List GlobalKeyframe) (ka kb : GlobalKeyframe) (post : List GlobalKeyframe)
    (elId : String) (el : OverlayElement) (time : ℝ)
    (hs : List.Sorted (fun a b : GlobalKeyframe => a.time < b.time) (pre ++ ka :: kb :: post))
    (h1 : ka.time < time) (h2 : time < kb.time) :
    (∀ p ∈ NUMERIC_KEYFRAME_PROPS, ∀ a : ℝ, getState ka elId p = some (.num a) →
       getState kb elId p = none → ∀ b : ℝ, elementPropValue el p = some (.num b) →
       interpolateElementFromGlobal (pre ++ ka :: kb :: post) elId el time p
         = some (.num (a + (b - a) * easingFn ((time - ka.time) / (kb.time - ka.time)) ka.easing)))
    ∧ (∀ p ∈ NUMERIC_KEYFRAME_PROPS, ∀ b : ℝ, getState ka elId p = none →
       getState kb elId p = some (.num b) → ∀ a : ℝ, elementPropValue el p = some (.num a) →
       interpolateElementFromGlobal (pre ++ ka :: kb :: post) elId el time p
         = some (.num (a + (b - a) * easingFn ((time - ka.time) / (kb.time - ka.time)) ka.easing)))
    ∧ (∀ p ∈ COLOR_KEYFRAME_PROPS, ∀ sa : String, getState ka elId p = some (.str sa) →
       getState kb elId p = none → ∀ sb : String, elementPropValue el p = some (.str sb) →
       interpolateElementFromGlobal (pre ++ ka :: kb :: post) elId el time p
         = some (.str (lerpColor sa sb (easingFn ((time - ka.time) / (kb.time - ka.time)) ka.easing))))
    ∧ (∀ p ∈ COLOR_KEYFRAME_PROPS, ∀ sb : String, getState ka elId p = none →
       getState kb elId p = some (.str sb) → ∀ sa : String, elementPropValue el p = some (.str sa) →
       interpolateElementFromGlobal (pre ++ ka :: kb :: post) elId el time p
         = some (.str (lerpColor sa sb (easingFn ((time - ka.time) / (kb.time - ka.time)) ka.easing))))
    ∧ (∀ p, getState ka elId p = none → getState kb elId p = none →
       interpolateElementFromGlobal (pre ++ ka :: kb :: post) elId el time p = none) := by
  rw [interpolate_bracket pre ka kb post elId el time hs h1 h2]
  have hspan : kb.time - ka.time > 0 := by linarith
  refine ⟨?_, ?_, ?_, ?_, ?_⟩
  · intro p hp a hka hkb b hbase
    simp only [interpPair, hka, hkb, if_pos hspan]
    rw [if_pos hp]
    simp only [numWithFallback, Value.asNum, hbase]
  · intro p hp b hka hkb a hbase
    simp only [interpPair, hka, hkb, if_pos hspan]
    rw [if_pos hp]
    simp only [numWithFallback, Value.asNum, hbase]
  · intro p hp sa hka hkb sb hbase
    simp only [interpPair, hka, hkb, if_pos hspan]
    rw [if_neg (color_not_numeric p hp), if_pos hp]
    simp only [strWithFallback, Value.asStr, hbase]
  · intro p hp sb hka hkb sa hbase
    simp only [interpPair, hka, hkb, if_pos hspan]
    rw [if_neg (color_not_numeric p hp), if_pos hp]
    simp only [strWithFallback, Value.asStr, hbase]
  · intro p hka hkb
    simp only [interpPair, hka, hkb, if_pos hspan]

/-- Witness for C3: keyframes at times 0 and 2 queried at `t = 1`; `y` is
present only in the first snapshot and blends toward the base `y = 20`
(giving 15, not 5), `fill` is present only in the second snapshot and
blends from the base `"#000000"` (giving `"#112244"`), and `width`,
present in neither, produces no entry. -/
theorem interpolate_missing_side_base_fallback_witness :
    interpolateElementFromGlobal [kfPrevW, kfNextW] "e" baseEl 1 .y = some (.num 15)
    ∧ interpolateElementFromGlobal [kfPrevW, kfNextW] "e" baseEl 1 .fill
        = some (.str "#112244")
    ∧ interpolateElementFromGlobal [kfPrevW, kfNextW] "e" baseEl 1 .width = none := by
  have h := interpolate_missing_side_base_fallback [] kfPrevW kfNextW [] "e" baseEl 1
    (by simp [List.sorted_cons, kfPrevW, kfNextW]) (by norm_num [kfPrevW]) (by norm_num [kfNextW])
  have hease : easingFn ((1 - kfPrevW.time) / (kfNextW.time - kfPrevW.time)) kfPrevW.easing
      = 1 / 2 := by
    simp [easingFn, kfPrevW, kfNextW]
  refine ⟨?_, ?_, ?_⟩
  · have h1 := h.1 .y (by decide) 10 (by simp [getState, kfPrevW, snapYOnly])
      (by simp [getState, kfNextW, snapFillOnly]) 20 (by simp [elementPropValue, baseEl, OverlayElement.scalars])
    rw [show ([kfPrevW, kfNextW] : List GlobalKeyframe)
        = [] ++ kfPrevW :: kfNextW :: [] from rfl, h1, hease]
    norm_num
  · have h4 := h.2.2.2.1 .fill (by decide) "#224488" (by simp [getState, kfPrevW, snapYOnly])
      (by simp [getState, kfNextW, snapFillOnly]) "#000000" (by simp [elementPropValue, baseEl, OverlayElement.scalars])
    rw [show ([kfPrevW, kfNextW] : List GlobalKeyframe)
        = [] ++ kfPrevW :: kfNextW :: [] from rfl, h4, hease]
    have hl : lerpColor "#000000" "#224488" (1 / 2) = "#112244" := by
      simp only [lerpColor, show lerpParse "#000000" = (0, 0, 0) from by decide,
        show lerpParse "#224488" = (34, 68, 136) from by decide]
      norm_num
      decide
    rw [hl]
  · have h5 := h.2.2.2.2 .width (by simp [getState, kfPrevW, snapYOnly])
      (by simp [getState, kfNextW, snapFillOnly])
    rw [show ([kfPrevW, kfNextW] : List GlobalKeyframe)
        = [] ++ kfPrevW :: kfNextW :: [] from rfl, h5]

lemma new_keyframe_time_near (time : ℝ) :
    |((round (time * 100) : ℤ) : ℝ) / 100 - time| ≤ 0.01 := by
  have h := abs_sub_round (time * 100)
  rw [abs_sub_comm] at h
  have h2 : |((round (time * 100) : ℤ) : ℝ) / 100 - time|
      = |((round (time * 100) : ℤ) : ℝ) - time * 100| / 100 := by
    rw [show ((round (time * 100) : ℤ) : ℝ) / 100 - time
        = (((round (time * 100) : ℤ) : ℝ) - time * 100) / 100 from by ring]
    rw [abs_div]
    norm_num
  rw [h2]
  rw [show (0.01 : ℝ) = 1 / 100 from by norm_num]
  rw [div_le_div_iff₀ (by norm_num) (by norm_num)]
  nlinarith [h]

/-- Claim C4.  After `addGlobalKeyframe(time)`, exactly one keyframe lies
within `0.01` seconds of the requested time (the new one, whose stored
time is the requested time rounded to 2 decimals); every pre-existing
keyframe within `0.01` of the requested time is removed, and every other
pre-existing keyframe is kept. -/
theorem addGlobalKeyframe_epsilon_replace (kfs : List GlobalKeyframe) (newId : String)
    (elements : List OverlayElement) (time : ℝ)
    (hfresh : ∀ k ∈ kfs, k.id ≠ newId) :
    ((addGlobalKeyframe kfs newId elements time).filter
        (fun k => decide (|k.time - time| ≤ 0.01))).length = 1
    ∧ (∀ k ∈ addGlobalKeyframe kfs newId elements time, |k.time - time| ≤ 0.01 → k.id = newId)
    ∧ (∀ k ∈ kfs, |k.time - time| ≤ 0.01 → k ∉ addGlobalKeyframe kfs newId elements time)
    ∧ (∀ k ∈ kfs, |k.time - time| > 0.01 → k ∈ addGlobalKeyframe kfs newId elements time) := by
  refine ⟨?_, ?_, ?_, ?_⟩
  · simp only [addGlobalKeyframe, List.filter_append, List.length_append]
    rw [List.filter_filter]
    have hfalse : ∀ k : GlobalKeyframe,
        (decide (|k.time - time| ≤ 0.01) && decide (|k.time - time| > 0.01)) = false := by
      intro k
      by_cases hk : |k.time - time| ≤ 0.01
      · simp [hk, not_lt.mpr hk]
      · simp [hk]
    simp only [hfalse, List.filter_false, List.length_nil]
    simp [new_keyframe_time_near time]
  · intro k hk hnear
    simp only [addGlobalKeyframe, List.mem_append, List.mem_filter, List.mem_singleton] at hk
    rcases hk with ⟨_, hkeep⟩ | rfl
    · rw [decide_eq_true_eq] at hkeep
      linarith
    · rfl
  · intro k hk hnear hmem
    simp only [addGlobalKeyframe, List.mem_append, List.mem_filter, List.mem_singleton] at hmem
    rcases hmem with ⟨_, hkeep⟩ | heq
    · rw [decide_eq_true_eq] at hkeep
      linarith
    · exact hfresh k hk (by rw [heq])
  · intro k hk hfar
    simp only [addGlobalKeyframe, List.mem_append, List.mem_filter]
    exact Or.inl ⟨hk, by rw [decide_eq_true_eq]; exact hfar⟩

/-- Witness for C4, the claim's own scenario: inserting at `t = 1.005`
when a keyframe exists at `t = 1.0` removes the old keyframe and leaves
exactly one keyframe near the insertion time. -/
theorem addGlobalKeyframe_epsilon_replace_witness :
    ((addGlobalKeyframe [kf0] "new" [] 1.005).filter
        (fun k => decide (|k.time - 1.005| ≤ 0.01))).length = 1
    ∧ kf0 ∉ addGlobalKeyframe [kf0] "new" [] 1.005 := by
  have hfresh : ∀ k ∈ [kf0], k.id ≠ "new" := by
    intro k hk
    rw [List.mem_singleton] at hk
    subst hk
    simp [kf0]
  have h := addGlobalKeyframe_epsilon_replace [kf0] "new" [] 1.005 hfresh
  refine ⟨h.1, h.2.2.1 kf0 (List.mem_singleton.mpr rfl) ?_⟩
  rw [show kf0.time = (1:ℝ) from rfl]
  rw [abs_le]
  norm_num

lemma snapshotWrites_eq_flatten_map (time? : Option ℝ) (kfs? : Option (List GlobalKeyframe)) :
    ∀ els : List OverlayElement,
      snapshotWrites time? kfs? els
        = (flattenEls els).map
            (fun el => (el.id, elementSnapshot (effectiveElement time? kfs? el)))
  | [] => by simp [snapshotWrites, flattenEls]
  | .mk s ch :: rest => by
    simp only [snapshotWrites, flattenEls, List.map_cons, List.map_append]
    rw [snapshotWrites_eq_flatten_map time? kfs? ch, snapshotWrites_eq_flatten_map time? kfs? rest]
    rfl

lemma foldWrites_of_not_mem (ws : List (String × Snapshot)) :
    ∀ (m : String → Option Snapshot) (i : String), i ∉ ws.map Prod.fst →
      (ws.foldl (fun m w => fun j => if j = w.1 then some w.2 else m j) m) i = m i := by
  induction ws with
  | nil => intro m i _; rfl
  | cons w rest ih =>
    intro m i hi
    simp only [List.map_cons, List.mem_cons] at hi
    push_neg at hi
    rw [List.foldl_cons, ih _ i hi.2]
    simp [hi.1]

lemma foldWrites_mem (ws : List (String × Snapshot)) :
    ∀ (m : String → Option Snapshot) (i : String) (snap : Snapshot),
      (ws.map Prod.fst).Nodup → (i, snap) ∈ ws →
      (ws.foldl (fun m w => fun j => if j = w.1 then some w.2 else m j) m) i = some snap := by
  induction ws with
  | nil => intro _ _ _ _ hmem; cases hmem
  | cons w rest ih =>
    intro m i snap hnodup hmem
    simp only [List.map_cons, List.nodup_cons] at hnodup
    rcases List.mem_cons.mp hmem with heq | hmem'
    · subst heq
      rw [List.foldl_cons, foldWrites_of_not_mem rest _ i (by simpa using hnodup.1)]
      simp
    · exact ih _ i snap hnodup.2 hmem'

/-- Claim C10.  For every element of the tree (ids assumed unique, per the
data-model invariant), the snapshot stored by `snapshotAllElements` always
records `x`, `y`, `width`, `height`, `rotation`, `opacity`, and `scaleX`/
`scaleY` (defaulting to 1 when unset) of the effective (interpolated)
element state, while `blur`, `brightness`, `fontSize` are present iff the
effective value is set and non-zero and `fill`, `strokeColor`, `color` are
present iff the effective value is set and non-empty. -/
theorem snapshotAllElements_keys (els : List OverlayElement) (time? : Option ℝ)
    (kfs? : Option (List GlobalKeyframe))
    (hnodup : ((flattenEls els).map OverlayElement.id).Nodup) :
    ∀ el ∈ flattenEls els,
      snapshotAllElements els time? kfs? el.id
        = some (elementSnapshot (effectiveElement time? kfs? el))
      ∧ elementSnapshot (effectiveElement time? kfs? el) .x
          = some (.num (effectiveElement time? kfs? el).scalars.x)
      ∧ elementSnapshot (effectiveElement time? kfs? el) .y
          = some (.num (effectiveElement time? kfs? el).scalars.y)
      ∧ elementSnapshot (effectiveElement time? kfs? el) .width
          = some (.num (effectiveElement time? kfs? el).scalars.width)
      ∧ elementSnapshot (effectiveElement time? kfs? el) .height
          = some (.num (effectiveElement time? kfs? el).scalars.height)
      ∧ elementSnapshot (effectiveElement time? kfs? el) .rotation
          = some (.num (effectiveElement time? kfs? el).scalars.rotation)
      ∧ elementSnapshot (effectiveElement time? kfs? el) .opacity
          = some (.num (effectiveElement time? kfs? el).scalars.opacity)
      ∧ elementSnapshot (effectiveElement time? kfs? el) .scaleX
          = some (.num ((effectiveElement time? kfs? el).scalars.scaleX.getD 1))
      ∧ elementSnapshot (effectiveElement time? kfs? el) .scaleY
          = some (.num ((effectiveElement time? kfs? el).scalars.scaleY.getD 1))
      ∧ ((elementSnapshot (effectiveElement time? kfs? el) .blur).isSome
          ↔ ∃ v, (effectiveElement time? kfs? el).scalars.blur = some v ∧ v ≠ 0)
      ∧ ((elementSnapshot (effectiveElement time? kfs? el) .brightness).isSome
          ↔ ∃ v, (effectiveElement time? kfs? el).scalars.brightness = some v ∧ v ≠ 0)
      ∧ ((elementSnapshot (effectiveElement time? kfs? el) .fontSize).isSome
          ↔ ∃ v, (effectiveElement time? kfs? el).scalars.fontSize = some v ∧ v ≠ 0)
      ∧ ((elementSnapshot (effectiveElement time? kfs? el) .fill).isSome
          ↔ ∃ s, (effectiveElement time? kfs? el).scalars.fill = some s ∧ s ≠ "")
      ∧ ((elementSnapshot (effectiveElement time? kfs? el) .strokeColor).isSome
          ↔ ∃ s, (effectiveElement time? kfs? el).scalars.strokeColor = some s ∧ s ≠ "")
      ∧ ((elementSnapshot (effectiveElement time? kfs? el) .color).isSome
          ↔ ∃ s, (effectiveElement time? kfs? el).scalars.color = some s ∧ s ≠ "") := by
  intro el hel
  have hkeys : (snapshotWrites time? kfs? els).map Prod.fst
      = (flattenEls els).map OverlayElement.id := by
    rw [snapshotWrites_eq_flatten_map, List.map_map]
    rfl
  refine ⟨?_, rfl, rfl, rfl, rfl, rfl, rfl, rfl, rfl, ?_, ?_, ?_, ?_, ?_, ?_⟩
  · apply foldWrites_mem
    · rw [hkeys]; exact hnodup
    · rw [snapshotWrites_eq_flatten_map]
      exact List.mem_map_of_mem _ hel
  · simp only [elementSnapshot]
    cases (effectiveElement time? kfs? el).scalars.blur with
    | none => simp
    | some v =>
      by_cases hv : v = 0
      · simp [hv]
      · simp [hv]
  · simp only [elementSnapshot]
    cases (effectiveElement time? kfs? el).scalars.brightness with
    | none => simp
    | some v =>
      by_cases hv : v = 0
      · simp [hv]
      · simp [hv]
  · simp only [elementSnapshot]
    cases (effectiveElement time? kfs? el).scalars.fontSize with
    | none => simp
    | some v =>
      by_cases hv : v = 0
      · simp [hv]
      · simp [hv]
  · simp only [elementSnapshot]
    cases (effectiveElement time? kfs? el).scalars.fill with
    | none => simp
    | some s =>
      by_cases hs : s = ""
      · simp [hs]
      · simp [hs]
  · simp only [elementSnapshot]
    cases (effectiveElement time? kfs? el).scalars.strokeColor with
    | none => simp
    | some s =>
      by_cases hs : s = ""
      · simp [hs]
      · simp [hs]
  · simp only [elementSnapshot]
    cases (effectiveElement time? kfs? el).scalars.color with
    | none => simp
    | some s =>
      by_cases hs : s = ""
      · simp [hs]
      · simp [hs]

/-- Witness for C10 on a concrete two-element tree: the root's snapshot
omits `blur` (effective value 0) and `fill` (empty string) but records
`fontSize = 24`, `x = 5` and the defaulted `scaleX = 1`. -/
theorem snapshotAllElements_keys_witness :
    snapshotAllElements [wElRoot] none none "a" = some (elementSnapshot wElRoot)
    ∧ elementSnapshot wElRoot .blur = none
    ∧ elementSnapshot wElRoot .fontSize = some (.num 24)
    ∧ elementSnapshot wElRoot .fill = none
    ∧ elementSnapshot wElRoot .x = some (.num 5)
    ∧ elementSnapshot wElRoot .scaleX = some (.num 1) := by
  have hnodup : ((flattenEls [wElRoot]).map OverlayElement.id).Nodup := by
    simp [flattenEls, wElRoot, wElChild, OverlayElement.id, OverlayElement.scalars]
  have hmem : wElRoot ∈ flattenEls [wElRoot] := by
    simp only [wElRoot, flattenEls]
    exact List.mem_cons_self _ _
  have h := snapshotAllElements_keys [wElRoot] none none hnodup wElRoot hmem
  have heff : effectiveElement none none wElRoot = wElRoot := rfl
  rw [heff] at h
  refine ⟨h.1, ?_, ?_, ?_, ?_, ?_⟩
  · simp [elementSnapshot, wElRoot, OverlayElement.scalars]
  · simp [elementSnapshot, wElRoot, OverlayElement.scalars]
  · simp [elementSnapshot, wElRoot, OverlayElement.scalars]
  · simp [elementSnapshot, wElRoot, OverlayElement.scalars]
  · simp [elementSnapshot, wElRoot, OverlayElement.scalars]
